import Mathlib

/-!
Shallow embedding of the retrieval-augmented advisory pipeline of the
`aws_rag` repository (files `ecs-rag-pipeline/workflow.py` and
`ecs-rag-pipeline/chat.py`).

Modelling conventions:
* A document chunk is represented by its rendered text (`page_content`);
  a retrieved result is a (document, score) pair as returned by
  `similarity_search_with_score` (`doc_tuple[0].page_content` in the source
  becomes `d.doc.page_content`).  Scores are opaque to every operation
  modelled here, so they are carried as integers.
* A Python `set` of strings is a `Finset String`; in-place mutation is made
  explicit by returning the final set alongside the result list.
* Language-model invocations and the vector store are ambient effects in the
  source; here they are explicit function arguments.  A model call that may
  raise is a function into `Except String String`.
* Python's `str.splitlines` / `str.strip` / `str.lower` / `str.startswith`
  are embedded at the character level (splitting on newline, trimming
  whitespace characters, ASCII lowercasing, prefix test) so that every
  definition is executable by the kernel.
* The store file written by `run_rag_pipeline` is modelled as an explicit
  value threaded through the call: the result of the write-back step is the
  raised-or-ok outcome together with the file contents after the call.
-/

namespace AwsRag

/-- Split a character list at every occurrence of `sep` (embedding of
`str.splitlines` for newline-separated text). -/
def splitOnChar (sep : Char) : List Char → List (List Char)
  | [] => [[]]
  | c :: rest =>
    let r := splitOnChar sep rest
    if c = sep then [] :: r
    else
      match r with
      | [] => [[c]]
      | h :: t => (c :: h) :: t

/-- Embedding of `str.strip`: drop whitespace from both ends. -/
def stripChars (l : List Char) : List Char :=
  ((l.dropWhile Char.isWhitespace).reverse.dropWhile Char.isWhitespace).reverse

/-- ASCII lowercasing of one character (embedding of `str.lower`; the
prefixes compared against in the source are pure ASCII). -/
def asciiLower (c : Char) : Char :=
  if 'A' ≤ c ∧ c ≤ 'Z' then Char.ofNat (c.toNat + 32) else c

/-- Embedding of `str.lower` on a whole line. -/
def lowerChars (l : List Char) : List Char := l.map asciiLower

/-- A document chunk as seen by the pipeline: only its rendered text
(`page_content`) is ever inspected. -/
structure Document where
  page_content : String
deriving DecidableEq

/-- A retrieved result: the `(document, similarity_score)` tuple returned by
`vectorstore.similarity_search_with_score`. -/
structure DocScore where
  doc : Document
  score : Int
deriving DecidableEq

/-- Constant `TOP_K = 4` from `workflow.py`. -/
def TOP_K : Nat := 4

/-- The `for doc_tuple in docs` loop of the typed `check_duplication` in
`chat.py` (the second definition, which shadows the dead global-list one):
threads the `seen_contents` set, skips a doc whose `page_content` is already
seen, otherwise adds the text to the set and keeps the doc. -/
def check_duplication_go (seen : Finset String) :
    List DocScore → List DocScore × Finset String
  | [] => ([], seen)
  | d :: rest =>
    let page_text := d.doc.page_content
    if page_text ∈ seen then check_duplication_go seen rest
    else
      let r := check_duplication_go (insert page_text seen) rest
      (d :: r.1, r.2)

/-- The typed `check_duplication(docs, seen_contents=None)` of `chat.py`,
applied to a list (the way `retriever` calls it).  `seen_contents = none`
selects the default: a fresh empty set for this call.  The returned pair is
(unique_docs, final state of the seen set). -/
def check_duplication (docs : List DocScore) (seen_contents : Option (Finset String)) :
    List DocScore × Finset String :=
  let seen := seen_contents.getD ∅
  check_duplication_go seen docs

/-- A single-pass Python iterator (e.g. a generator) over doc tuples:
iterating it consumes it. -/
structure DocIterator where
  remaining : List DocScore
deriving DecidableEq

/-- Evaluating `tuple(docs)` on a single-pass iterator: materializes the
remaining elements and leaves the iterator exhausted. -/
def DocIterator.toTuple (it : DocIterator) : List DocScore × DocIterator :=
  (it.remaining, ⟨[]⟩)

/-- The typed `check_duplication` of `chat.py` applied to a single-pass
iterator: `original_len = len(tuple(docs))` consumes the iterator, so the
subsequent `for doc_tuple in docs` loop iterates over the exhausted
iterator. -/
def check_duplication_iter (docs : DocIterator) (seen_contents : Option (Finset String)) :
    List DocScore × Finset String :=
  let seen := seen_contents.getD ∅
  let t := docs.toTuple
  let _original_len := t.1.length
  check_duplication_go seen t.2.remaining

/-- The query parsing of `query_planner` in `workflow.py`:
`[line.strip() for line in raw_text.splitlines() if line.strip() and not
line.lower().startswith(("event json", "natural-language questions"))]`. -/
def parse_queries (raw_text : String) : List String :=
  ((splitOnChar '\n' raw_text.toList).filter (fun line =>
      !(stripChars line).isEmpty
      && !(("event json".toList).isPrefixOf (lowerChars line))
      && !(("natural-language questions".toList).isPrefixOf (lowerChars line)))).map
    (fun line => (stripChars line).asString)

/-- The `retriever` node of `workflow.py`: per-query top-K similarity
searches, concatenated in plan order by `sum(..., start=[])` (a left fold of
list append), then deduplicated by `check_duplication(retrieved)` — no
`seen_contents` argument is passed, so the default `none` is used.  The
vector store is the explicit argument `search`. -/
def retriever (plan : List String) (search : String → Nat → List DocScore) :
    List DocScore :=
  let retrieved := plan.foldl (fun acc q => acc ++ search q TOP_K) []
  (check_duplication retrieved none).1

/-- The fixed fallback answer of `generate_answer` in `workflow.py`. -/
def FALLBACK_ANSWER : String :=
  "Sorry, an internal error occurred while generating the answer."

/-- The `generate_answer` node of `workflow.py`: join the reference docs'
texts with blank lines into a context block, invoke the model on
(context, input); if the invocation raises, catch and return the fixed
fallback string. -/
def generate_answer (reference_docs : List DocScore) (input : String)
    (llm : String → String → Except String String) : String :=
  let context := String.intercalate "\n\n" (reference_docs.map (fun d => d.doc.page_content))
  match llm context input with
  | Except.ok response => response
  | Except.error _ => FALLBACK_ANSWER

/-- The linear planner → retriever → generate flow compiled by
`run_workflow`.  The planner's model call (`llmPlan`) has no exception
handler in the source, so its failure propagates (`Except.error`); the
parsed plan — whatever its length, including zero — flows on to the
retriever; synthesis failures are absorbed inside `generate_answer`. -/
def run_workflow (input : String) (llmPlan : String → Except String String)
    (search : String → Nat → List DocScore)
    (llmGen : String → String → Except String String) : Except String String :=
  match llmPlan input with
  | Except.error e => Except.error e
  | Except.ok raw_text =>
    let plan := parse_queries raw_text
    let reference_docs := retriever plan search
    Except.ok (generate_answer reference_docs input llmGen)

/-- One record of the anomaly store file read by `run_rag_pipeline`: its
`eventId` entry (`record.get("eventId")`, absent keys give `none`), its
`ragAdvisor` entry, and the remaining key/value pairs, which the write-back
never touches. -/
structure Record where
  eventId : Option String
  ragAdvisor : Option String
  fields : List (String × String)
deriving DecidableEq

/-- Assignment `record["ragAdvisor"] = rag_result`: set only the advisory
field. -/
def setAdvisor (adv : String) (r : Record) : Record :=
  { r with ragAdvisor := some adv }

/-- The `for record in records: ... break / else: raise KeyError` loop of
`run_rag_pipeline`: update the first record whose `eventId` equals the
event's identifier; `none` models the for-else `KeyError` when no record
matches. -/
def attach_advisory (eid adv : String) : List Record → Option (List Record)
  | [] => none
  | r :: rest =>
    if r.eventId = some eid then some (setAdvisor adv r :: rest)
    else (attach_advisory eid adv rest).map (fun rest2 => r :: rest2)

/-- The errors `run_rag_pipeline` can raise at write-back time:
`FileNotFoundError` when the store file is missing, `KeyError` (the
not-found case) when no record carries the event identifier. -/
inductive RagError where
  | fileNotFound : RagError
  | keyNotFound : String → RagError
deriving DecidableEq

/-- The write-back tail of `run_rag_pipeline`, with the store file contents
made explicit (`none` = file missing).  The result is the raised-or-ok
outcome paired with the file contents after the call: the file is reopened
for writing only after the loop succeeds, so both error paths leave it
exactly as it was. -/
def run_rag_pipeline_writeback (file : Option (List Record)) (eid adv : String) :
    Except RagError Unit × Option (List Record) :=
  match file with
  | none => (Except.error RagError.fileNotFound, none)
  | some records =>
    match attach_advisory eid adv records with
    | none => (Except.error (RagError.keyNotFound eid), some records)
    | some updated => (Except.ok (), some updated)

/-- Spec-side reading of deduplication (§4.2 of the design): keep a doc
exactly when its text is neither in the initial seen set `S` nor the text of
ANY earlier doc of the list; `earlier` accumulates the texts of all docs
already passed, kept or dropped. -/
def dedup_first_occurrence (S : Finset String) (earlier : List String) :
    List DocScore → List DocScore
  | [] => []
  | d :: rest =>
    if d.doc.page_content ∈ S ∨ d.doc.page_content ∈ earlier then
      dedup_first_occurrence S (earlier ++ [d.doc.page_content]) rest
    else
      d :: dedup_first_occurrence S (earlier ++ [d.doc.page_content]) rest

/-- Two pipeline runs executed in sequence in one process, each retrieving
its own raw result list and each calling `check_duplication` the way
`retriever` does (no `seen_contents` argument).  The pair holds the two
deduplicated outputs. -/
def two_runs (raw1 raw2 : List DocScore) : List DocScore × List DocScore :=
  let run1 := check_duplication raw1 none
  let run2 := check_duplication raw2 none
  (run1.1, run2.1)

/-- Concrete docs for the `[A, B, A, C]` example of §8: `docA2` renders the
same text as `docA` but was returned with a different score. -/
def docA : DocScore := ⟨⟨"A"⟩, 10⟩

def docB : DocScore := ⟨⟨"B"⟩, 9⟩

def docA2 : DocScore := ⟨⟨"A"⟩, 8⟩

def docC : DocScore := ⟨⟨"C"⟩, 7⟩

/-- A planner model response consisting only of preamble/blank lines: it
parses to zero usable queries. -/
def PREAMBLE_ONLY_RESPONSE : String := "Event JSON:\n\n"

/-- Concrete store records for witnesses. -/
def recA : Record := ⟨some "ev-a", none, [("severity", "low")]⟩

def recB : Record := ⟨some "ev-b", none, [("severity", "high")]⟩

/-- A concrete vector store for witnesses: one query has results (with a
duplicated text), every other query has none. -/
def searchW : String → Nat → List DocScore :=
  fun q _ => if q = "w1" then [docA, docA2, docB] else []

/-- A concrete synthesis model call that always raises. -/
def llmFail : String → String → Except String String :=
  fun _ _ => Except.error "timeout"

/-- A concrete planner model call that returns one usable line. -/
def llmPlanW : String → Except String String :=
  fun _ => Except.ok "overhead crane safety"

/- ------------------------------------------------------------------ -/
/- Helper lemmas                                                       -/
/- ------------------------------------------------------------------ -/

theorem check_duplication_none (docs : List DocScore) :
    check_duplication docs none = check_duplication_go ∅ docs := rfl

theorem check_duplication_some (docs : List DocScore) (S : Finset String) :
    check_duplication docs (some S) = check_duplication_go S docs := rfl

theorem go_cons_mem (seen : Finset String) (d : DocScore) (rest : List DocScore)
    (h : d.doc.page_content ∈ seen) :
    check_duplication_go seen (d :: rest) = check_duplication_go seen rest := by
  simp [check_duplication_go, h]

theorem go_cons_not_mem (seen : Finset String) (d : DocScore) (rest : List DocScore)
    (h : d.doc.page_content ∉ seen) :
    check_duplication_go seen (d :: rest) =
      (d :: (check_duplication_go (insert d.doc.page_content seen) rest).1,
       (check_duplication_go (insert d.doc.page_content seen) rest).2) := by
  simp [check_duplication_go, h]

/-- Every doc kept by the dedup loop comes from the input list. -/
theorem go_mem (docs : List DocScore) : ∀ (seen : Finset String) (d : DocScore),
    d ∈ (check_duplication_go seen docs).1 → d ∈ docs := by
  induction docs with
  | nil => intro seen d hd; simp [check_duplication_go] at hd
  | cons d0 rest ih =>
    intro seen d hd
    by_cases h : d0.doc.page_content ∈ seen
    · rw [go_cons_mem seen d0 rest h] at hd
      exact List.mem_cons_of_mem d0 (ih seen d hd)
    · rw [go_cons_not_mem seen d0 rest h] at hd
      rcases List.mem_cons.mp hd with h1 | h1
      · exact h1 ▸ List.mem_cons_self d0 rest
      · exact List.mem_cons_of_mem d0 (ih _ d h1)

/-- No doc kept by the dedup loop has its text in the starting seen set. -/
theorem go_not_mem_seen (docs : List DocScore) : ∀ (seen : Finset String) (d : DocScore),
    d ∈ (check_duplication_go seen docs).1 → d.doc.page_content ∉ seen := by
  induction docs with
  | nil => intro seen d hd; simp [check_duplication_go] at hd
  | cons d0 rest ih =>
    intro seen d hd
    by_cases h : d0.doc.page_content ∈ seen
    · rw [go_cons_mem seen d0 rest h] at hd
      exact ih seen d hd
    · rw [go_cons_not_mem seen d0 rest h] at hd
      rcases List.mem_cons.mp hd with h1 | h1
      · exact h1 ▸ h
      · intro hmem
        exact ih _ d h1 (Finset.mem_insert_of_mem hmem)

/-- The docs kept by the dedup loop have pairwise distinct texts. -/
theorem go_pairwise (docs : List DocScore) : ∀ seen : Finset String,
    List.Pairwise (fun a b => a.doc.page_content ≠ b.doc.page_content)
      (check_duplication_go seen docs).1 := by
  induction docs with
  | nil => intro seen; simp [check_duplication_go]
  | cons d0 rest ih =>
    intro seen
    by_cases h : d0.doc.page_content ∈ seen
    · rw [go_cons_mem seen d0 rest h]
      exact ih seen
    · rw [go_cons_not_mem seen d0 rest h]
      refine List.Pairwise.cons ?_ (ih _)
      intro b hb hcontra
      have hnot := go_not_mem_seen rest _ b hb
      exact hnot (hcontra ▸ Finset.mem_insert_self _ _)

/-- The final seen set is the starting one united with the texts of the
kept docs. -/
theorem go_seen (docs : List DocScore) : ∀ seen : Finset String,
    (check_duplication_go seen docs).2 =
      seen ∪ ((check_duplication_go seen docs).1.map
        (fun d => d.doc.page_content)).toFinset := by
  induction docs with
  | nil => intro seen; simp [check_duplication_go]
  | cons d0 rest ih =>
    intro seen
    by_cases h : d0.doc.page_content ∈ seen
    · rw [go_cons_mem seen d0 rest h]
      exact ih seen
    · rw [go_cons_not_mem seen d0 rest h]
      simp only [List.map_cons, List.toFinset_cons]
      rw [ih (insert d0.doc.page_content seen)]
      ext x
      simp only [Finset.mem_union, Finset.mem_insert, List.mem_toFinset]
      tauto

/-- The dedup loop seeded with the texts of `earlier` (plus any initial set
`S`) computes exactly the spec-side first-occurrence filter. -/
theorem go_first_occurrence (S : Finset String) (docs : List DocScore) :
    ∀ earlier : List String,
      (check_duplication_go (S ∪ earlier.toFinset) docs).1 =
        dedup_first_occurrence S earlier docs := by
  induction docs with
  | nil => intro earlier; rfl
  | cons d0 rest ih =>
    intro earlier
    by_cases h : d0.doc.page_content ∈ S ∨ d0.doc.page_content ∈ earlier
    · have hmem : d0.doc.page_content ∈ S ∪ earlier.toFinset := by
        simpa [Finset.mem_union, List.mem_toFinset] using h
      have hseen : S ∪ (earlier ++ [d0.doc.page_content]).toFinset
          = S ∪ earlier.toFinset := by
        ext x
        simp only [Finset.mem_union, List.mem_toFinset, List.mem_append,
          List.mem_singleton]
        constructor
        · rintro (hx | hx | rfl)
          · exact Or.inl hx
          · exact Or.inr hx
          · simpa [Finset.mem_union, List.mem_toFinset] using hmem
        · rintro (hx | hx)
          · exact Or.inl hx
          · exact Or.inr (Or.inl hx)
      rw [go_cons_mem _ _ _ hmem]
      rw [show dedup_first_occurrence S earlier (d0 :: rest)
            = dedup_first_occurrence S (earlier ++ [d0.doc.page_content]) rest by
          simp [dedup_first_occurrence, h]]
      rw [← ih (earlier ++ [d0.doc.page_content]), hseen]
    · have hmem : d0.doc.page_content ∉ S ∪ earlier.toFinset := by
        simp only [Finset.mem_union, List.mem_toFinset]
        tauto
      have hseen : insert d0.doc.page_content (S ∪ earlier.toFinset)
          = S ∪ (earlier ++ [d0.doc.page_content]).toFinset := by
        ext x
        simp only [Finset.mem_union, Finset.mem_insert, List.mem_toFinset,
          List.mem_append, List.mem_singleton]
        tauto
      rw [go_cons_not_mem _ _ _ hmem]
      rw [show dedup_first_occurrence S earlier (d0 :: rest)
            = d0 :: dedup_first_occurrence S (earlier ++ [d0.doc.page_content]) rest by
          simp [dedup_first_occurrence, h]]
      simp only [List.cons.injEq, true_and]
      rw [← ih (earlier ++ [d0.doc.page_content]), hseen]

/-- The left fold of appends used by `retriever` to concatenate the
per-query result lists equals the flat concatenation in query order. -/
theorem foldl_append_eq_join (f : String → List DocScore) :
    ∀ (plan : List String) (init : List DocScore),
      plan.foldl (fun acc q => acc ++ f q) init = init ++ (plan.map f).flatten := by
  intro plan
  induction plan with
  | nil => intro init; simp
  | cons q rest ih =>
    intro init
    simp only [List.foldl_cons, List.map_cons, List.flatten_cons]
    rw [ih (init ++ f q), List.append_assoc]

/-- When no record carries the identifier, the write-back loop reaches its
for-else branch. -/
theorem attach_advisory_absent (eid adv : String) : ∀ records : List Record,
    (∀ r ∈ records, r.eventId ≠ some eid) →
    attach_advisory eid adv records = none := by
  intro records
  induction records with
  | nil => intro _; rfl
  | cons r0 rest ih =>
    intro h
    have hr : r0.eventId ≠ some eid := h r0 (List.mem_cons_self r0 rest)
    simp [attach_advisory, hr, ih (fun x hx => h x (List.mem_cons_of_mem r0 hx))]

/- ------------------------------------------------------------------ -/
/- Claim theorems                                                      -/
/- ------------------------------------------------------------------ -/

/-- C1: for every non-empty list of planned queries, the retriever's
deduplicated output contains no two entries whose chunks have identical
`page_content` text, and every entry of the output comes from one of the
per-query raw result lists returned by the chunk-store searches. -/
theorem retriever_dedup_sound (plan : List String)
    (search : String → Nat → List DocScore) (_hplan : plan ≠ []) :
    List.Pairwise (fun a b => a.doc.page_content ≠ b.doc.page_content)
      (retriever plan search) ∧
    ∀ d ∈ retriever plan search, ∃ q ∈ plan, d ∈ search q TOP_K := by
  constructor
  · exact go_pairwise _ _
  · intro d hd
    have hd2 : d ∈ plan.foldl (fun acc q => acc ++ search q TOP_K) [] :=
      go_mem _ _ d hd
    rw [foldl_append_eq_join] at hd2
    simpa [List.mem_flatten] using hd2

/-- Witness for C1 at a concrete plan and store. -/
theorem retriever_dedup_sound_witness :
    (["w1"] ≠ ([] : List String)) ∧
    (List.Pairwise (fun a b => a.doc.page_content ≠ b.doc.page_content)
      (retriever ["w1"] searchW) ∧
     ∀ d ∈ retriever ["w1"] searchW, ∃ q ∈ ["w1"], d ∈ searchW q TOP_K) :=
  ⟨by decide, retriever_dedup_sound ["w1"] searchW (by decide)⟩

/-- C2: the retriever concatenates the per-query top-K result lists in query
order and deduplicates by exact `page_content` match keeping the first
occurrence — its output is the first-occurrence subsequence of the
concatenated raw list; in particular raw results `[A, B, A, C]` by text
identity yield `[A, B, C]`. -/
theorem retriever_first_occurrence (plan : List String)
    (search : String → Nat → List DocScore) :
    retriever plan search =
      dedup_first_occurrence ∅ []
        ((plan.map (fun q => search q TOP_K)).flatten) ∧
    (check_duplication [docA, docB, docA2, docC] none).1 = [docA, docB, docC] := by
  constructor
  · show (check_duplication (plan.foldl (fun acc q => acc ++ search q TOP_K) []) none).1 = _
    rw [check_duplication_none, foldl_append_eq_join]
    have := go_first_occurrence ∅ ((plan.map fun q => search q TOP_K).flatten) []
    simpa using this
  · decide

/-- C3: the source does not abort when planning parses to zero usable
lines.  On a model response consisting only of preamble/blank lines the
parsed plan is empty, and the run then completes normally instead of
raising a planning error: its outcome is independent of the vector store
(zero searches can influence it) and equals a successful answer generated
from an empty reference list. -/
theorem empty_plan_run_completes :
    parse_queries PREAMBLE_ONLY_RESPONSE = [] ∧
    (∀ (input : String) (llmGen : String → String → Except String String)
        (s1 s2 : String → Nat → List DocScore),
      run_workflow input (fun _ => Except.ok PREAMBLE_ONLY_RESPONSE) s1 llmGen =
      run_workflow input (fun _ => Except.ok PREAMBLE_ONLY_RESPONSE) s2 llmGen) ∧
    (∀ (input : String) (llmGen : String → String → Except String String)
        (s : String → Nat → List DocScore),
      run_workflow input (fun _ => Except.ok PREAMBLE_ONLY_RESPONSE) s llmGen =
        Except.ok (generate_answer [] input llmGen)) := by
  have hpq : parse_queries PREAMBLE_ONLY_RESPONSE = [] := by decide
  refine ⟨hpq, ?_, ?_⟩
  · intro input llmGen s1 s2
    simp [run_workflow, hpq, retriever, check_duplication_none, check_duplication_go]
  · intro input llmGen s
    simp [run_workflow, hpq, retriever, check_duplication_none, check_duplication_go]

/-- C4 counterexample: a two-line model response whose lines coincide
parses to a plan of two equal queries — neither exactly three nor pairwise
distinct. -/
theorem planner_three_distinct_counterexample :
    parse_queries "q one\nq one" = ["q one", "q one"] ∧
    (parse_queries "q one\nq one").length ≠ 3 ∧
    ¬ List.Pairwise (fun a b => a ≠ b) (parse_queries "q one\nq one") :=
  ⟨by decide, by decide, by decide⟩

/-- C4 as amended: every entry of the planner's parsed plan is a non-empty
string (a stripped, non-blank, non-preamble line of the model response);
the plan's exact length and the distinctness of its entries are not
enforced by the code. -/
theorem planner_queries_nonempty (raw_text q : String)
    (hq : q ∈ parse_queries raw_text) : q ≠ "" := by
  intro h0
  unfold parse_queries at hq
  simp only [List.mem_map, List.mem_filter] at hq
  obtain ⟨line, ⟨_, hp⟩, hline⟩ := hq
  have hnonempty : (stripChars line).isEmpty = false := by
    rcases Bool.and_eq_true _ _ |>.mp hp with ⟨h1, _⟩
    rcases Bool.and_eq_true _ _ |>.mp h1 with ⟨h2, _⟩
    simpa using h2
  have hdata : stripChars line = [] := congrArg String.data (hline.trans h0)
  rw [hdata] at hnonempty
  simp at hnonempty

/-- Witness for the amended C4 at a concrete model response. -/
theorem planner_queries_nonempty_witness :
    ("check lockout procedure" ∈ parse_queries "check lockout procedure") ∧
    "check lockout procedure" ≠ "" :=
  ⟨by decide,
   planner_queries_nonempty "check lockout procedure" "check lockout procedure"
     (by decide)⟩

/-- C5: when no stored record carries the event identifier, the write-back
of `run_rag_pipeline` raises the not-found error (a `KeyError`, an error
kind distinct from model or planning failures) and the store file is left
exactly as it was — in particular no record is inserted for the unknown
identifier. -/
theorem writeback_unknown_id_no_write (records : List Record) (eid adv : String)
    (habsent : ∀ r ∈ records, r.eventId ≠ some eid) :
    run_rag_pipeline_writeback (some records) eid adv =
      (Except.error (RagError.keyNotFound eid), some records) := by
  simp [run_rag_pipeline_writeback, attach_advisory_absent eid adv records habsent]

/-- Witness for C5 at a concrete store and unknown identifier. -/
theorem writeback_unknown_id_no_write_witness :
    (∀ r ∈ [recA], r.eventId ≠ some "ev-x") ∧
    run_rag_pipeline_writeback (some [recA]) "ev-x" "adv" =
      (Except.error (RagError.keyNotFound "ev-x"), some [recA]) :=
  ⟨by decide, writeback_unknown_id_no_write [recA] "ev-x" "adv" (by decide)⟩

/-- C6: when the synthesis-stage model invocation raises, no exception
escapes: the run reaches its terminal state with the answer equal to the
fixed fallback string. -/
theorem synthesis_failure_fallback (input raw_text : String)
    (llmPlan : String → Except String String)
    (search : String → Nat → List DocScore)
    (llmGen : String → String → Except String String)
    (hplan : llmPlan input = Except.ok raw_text)
    (hgen : ∀ c i, ∃ e, llmGen c i = Except.error e) :
    run_workflow input llmPlan search llmGen = Except.ok FALLBACK_ANSWER := by
  obtain ⟨e, he⟩ := hgen
    (String.intercalate "\n\n"
      ((retriever (parse_queries raw_text) search).map (fun d => d.doc.page_content)))
    input
  simp [run_workflow, hplan, generate_answer, he]

/-- Witness for C6 at a concrete run whose synthesis model always raises. -/
theorem synthesis_failure_fallback_witness :
    (llmPlanW "evt" = Except.ok "overhead crane safety") ∧
    (∀ c i, ∃ e, llmFail c i = Except.error e) ∧
    run_workflow "evt" llmPlanW searchW llmFail = Except.ok FALLBACK_ANSWER :=
  ⟨rfl, fun _ _ => ⟨"timeout", rfl⟩,
   synthesis_failure_fallback "evt" "overhead crane safety" llmPlanW searchW llmFail
     rfl (fun _ _ => ⟨"timeout", rfl⟩)⟩

/-- C7: deduplication state is run-scoped by default.  The retriever calls
`check_duplication` with no seen-set, which resolves to a fresh empty set,
so in two successive runs with identical raw results the second output
equals the first; cross-run sharing requires explicitly passing a set, and
doing so can change the output. -/
theorem dedup_run_scoped :
    (∀ raw : List DocScore, (two_runs raw raw).2 = (two_runs raw raw).1) ∧
    (∀ raw : List DocScore, check_duplication raw none = check_duplication_go ∅ raw) ∧
    (check_duplication [docA] (some (insert "A" ∅))).1 ≠
      (check_duplication [docA] none).1 :=
  ⟨fun _ => rfl, fun _ => rfl, by decide⟩

/-- C8: on a list `docs` and a caller-supplied set `S`, the typed
`check_duplication` returns exactly those docs whose `page_content` is
neither in the initial `S` nor equal to the `page_content` of an earlier
doc of the list, and the set it mutates in place ends as the initial `S`
united with the texts of every returned doc. -/
theorem check_duplication_spec (docs : List DocScore) (S : Finset String) :
    (check_duplication docs (some S)).1 = dedup_first_occurrence S [] docs ∧
    (check_duplication docs (some S)).2 =
      S ∪ ((check_duplication docs (some S)).1.map
        (fun d => d.doc.page_content)).toFinset := by
  rw [check_duplication_some]
  constructor
  · have := go_first_occurrence S docs []
    simpa using this
  · exact go_seen docs S

/-- C9: on a single-pass iterator, `len(tuple(docs))` exhausts the input
before the loop runs, so the typed `check_duplication` returns the empty
list and leaves the supplied seen-set unchanged, whatever the iterator
held. -/
theorem check_duplication_iterator_empty (l : List DocScore) (s : Finset String) :
    check_duplication_iter ⟨l⟩ (some s) = ([], s) ∧
    check_duplication_iter ⟨l⟩ none = ([], ∅) :=
  ⟨rfl, rfl⟩

/-- C10: a successful write-back updates exactly the first stored record
whose `eventId` matches, replacing it by the same record with only
`ragAdvisor` set; every record before it does not match, and every other
record of the store is returned unchanged. -/
theorem writeback_frame (records : List Record) (eid adv : String) :
    ∀ out : List Record, attach_advisory eid adv records = some out →
    ∃ i r, records[i]? = some r ∧ r.eventId = some eid ∧
      (∀ j, j < i → ∀ rj, records[j]? = some rj → rj.eventId ≠ some eid) ∧
      out = records.take i ++ setAdvisor adv r :: records.drop (i + 1) := by
  induction records with
  | nil => intro out h; simp [attach_advisory] at h
  | cons r0 rest ih =>
    intro out h
    by_cases h0 : r0.eventId = some eid
    · refine ⟨0, r0, by simp, h0, ?_, ?_⟩
      · intro j hj
        exact absurd hj (Nat.not_lt_zero j)
      · simp [attach_advisory, h0] at h
        simp [← h]
    · simp only [attach_advisory, h0, if_false, Option.map_eq_some'] at h
      obtain ⟨out', hout', rfl⟩ := h
      obtain ⟨i, r, hget, heid, hbefore, hout⟩ := ih out' hout'
      refine ⟨i + 1, r, ?_, heid, ?_, ?_⟩
      · simpa using hget
      · intro j hj rj hj2
        cases j with
        | zero =>
          simp only [List.getElem?_cons_zero, Option.some.injEq] at hj2
          rw [← hj2]
          exact h0
        | succ j' =>
          refine hbefore j' (by omega) rj ?_
          simpa using hj2
      · simp [hout]

/-- Witness for C10 at a concrete store whose second record matches. -/
theorem writeback_frame_witness :
    ∃ i r, ([recA, recB])[i]? = some r ∧ r.eventId = some "ev-b" ∧
      (∀ j, j < i → ∀ rj, ([recA, recB])[j]? = some rj →
        rj.eventId ≠ some "ev-b") ∧
      [recA, setAdvisor "wear ppe" recB] =
        ([recA, recB]).take i ++ setAdvisor "wear ppe" r ::
          ([recA, recB]).drop (i + 1) :=
  writeback_frame [recA, recB] "ev-b" "wear ppe"
    [recA, setAdvisor "wear ppe" recB] (by decide)

end AwsRag
